import Mathlib

/-!
# Verification of the simple-redis command interpretation and storage engine

A shallow embedding of the repository's core: the concurrent backend store
(`src/backend/mod.rs`), the typed command parsing layer and the executor
dispatch for the ECHO and set commands (`src/cmd/echo.rs`, `src/cmd/set.rs`).

Modelling conventions:
* `RespFrame` is the protocol frame type; a `RespArray` request is modelled
  directly as a `List RespFrame`.  Bulk-string payloads are modelled as
  already-decoded text (`String`); hence the UTF-8 decoding step
  `String::from_utf8` always succeeds in the model.
* `DashMap` namespaces are modelled as association lists (`alGet`/`alPut`);
  `DashSet<String>` is modelled as a duplicate-free `List String` grown by
  `insert` semantics.  Concurrency is out of scope: every operation is a pure
  state transformer on `Backend`.
* Mutating operations return the updated `Backend` explicitly.
-/

namespace SimpleRedis

/-- The protocol frame type (external collaborator `RespFrame`).  Bulk-string
payloads are modelled as decoded text. -/
inductive RespFrame where
  | bulkString (s : String)
  | simpleString (s : String)
  | integer (i : Int)
  | null
  | error (msg : String)
  | array (elems : List RespFrame)

/-- Modelled from the spec: the `CommandError` taxonomy of §7 (the enum itself
lives in `src/cmd/mod.rs`, which is not under `src/`).  The source's
`CommandError::InvalidArgument` sites are mapped onto this taxonomy by their
meaning: argument-count failures to `wrongArgCount`, frame-kind failures to
`wrongArgumentType`; text-decoding failures would map to `invalidText`. -/
inductive CommandError where
  | wrongCommand (msg : String)
  | wrongArgCount (msg : String)
  | wrongArgumentType (msg : String)
  | invalidText (msg : String)
deriving DecidableEq

/-- The message carried by a command error (used when rendering an error
reply at the boundary). -/
def CommandError.message : CommandError → String
  | .wrongCommand m => m
  | .wrongArgCount m => m
  | .wrongArgumentType m => m
  | .invalidText m => m

/-- Association-list lookup, the model of `DashMap::get`. -/
def alGet {α : Type} : List (String × α) → String → Option α
  | [], _ => none
  | (k2, v) :: rest, k => if k2 = k then some v else alGet rest k

/-- Association-list upsert, the model of `DashMap::insert` /
`DashMap::entry(..).or_default()` followed by an update in place. -/
def alPut {α : Type} : List (String × α) → String → α → List (String × α)
  | [], k, v => [(k, v)]
  | (k2, v2) :: rest, k, v =>
    if k2 = k then (k2, v) :: rest else (k2, v2) :: alPut rest k v

/-- The backend store (`Backend` / `BackendInner` in `src/backend/mod.rs`):
three independent namespaces keyed by string. -/
structure Backend where
  map : List (String × RespFrame)
  hmap : List (String × List (String × RespFrame))
  set_map : List (String × List String)

/-- `Backend::new` / `Backend::default`: all three namespaces empty. -/
def Backend.empty : Backend := ⟨[], [], []⟩

/-- `Backend::get`. -/
def Backend.get (b : Backend) (key : String) : Option RespFrame :=
  alGet b.map key

/-- `Backend::set`. -/
def Backend.set (b : Backend) (key : String) (value : RespFrame) : Backend :=
  { b with map := alPut b.map key value }

/-- `Backend::hget`: none if the key is absent or the field is absent. -/
def Backend.hget (b : Backend) (key field : String) : Option RespFrame :=
  (alGet b.hmap key).bind (fun h => alGet h field)

/-- `Backend::hmget`: if the hash exists, look every field up in order;
otherwise `vec![None; fields.len()]`. -/
def Backend.hmget (b : Backend) (key : String) (fields : List String) :
    List (Option RespFrame) :=
  match alGet b.hmap key with
  | some h => fields.map (fun field => alGet h field)
  | none => List.replicate fields.length none

/-- `Backend::smembers`: clone of the stored set, none if the key is absent. -/
def Backend.smembers (b : Backend) (key : String) : Option (List String) :=
  alGet b.set_map key

/-- The loop body of `Backend::sadd`:
`values.iter().filter(|v| set.insert(v.to_string())).count()`, where
`DashSet::insert` returns true exactly when the member was newly inserted.
Returns the grown set together with the count of new insertions. -/
def saddLoop : List String → List String → List String × Nat
  | s, [] => (s, 0)
  | s, v :: rest =>
    if v ∈ s then saddLoop s rest
    else ((saddLoop (s ++ [v]) rest).1, (saddLoop (s ++ [v]) rest).2 + 1)

/-- `Backend::sadd`: `entry(key).or_default()` materialises the set (creating
an empty one if absent), then each value is inserted, counting the newly
inserted ones. -/
def Backend.sadd (b : Backend) (key : String) (values : List String) :
    Backend × Int :=
  let s := (alGet b.set_map key).getD []
  let r := saddLoop s values
  ({ b with set_map := alPut b.set_map key r.1 }, (r.2 : Int))

/-- `Backend::sismember`: 1 when the key exists and contains the value,
0 otherwise (`map_or(false, |set| set.contains(&value))`). -/
def Backend.sismember (b : Backend) (key value : String) : Int :=
  let ismember : Bool :=
    match alGet b.set_map key with
    | some s => decide (value ∈ s)
    | none => false
  match ismember with
  | true => 1
  | false => 0

/-! ## Command model (`src/cmd/echo.rs`, `src/cmd/set.rs`) -/

/-- The ECHO command model. -/
structure Echo where
  value : String
deriving DecidableEq

/-- The SADD command model. -/
structure SAdd where
  key : String
  values : List String
deriving DecidableEq

/-- The SMEMBERS command model, with its sort flag. -/
structure SMembers where
  key : String
  sort : Bool
deriving DecidableEq

/-- The SISMEMBER command model. -/
structure SIsMember where
  key : String
  value : String
deriving DecidableEq

/-- Modelled from the spec: the lower-casing applied to the command name at
the comparison boundary (§4.2: command-name matching is case-insensitive;
stored data is never case-folded).  Character-wise ASCII lower-casing. -/
def asciiLower (s : String) : String :=
  String.mk (s.data.map Char.toLower)

/-- Modelled from the spec: `validate_command` (§4.2, shared helpers in
`src/cmd/mod.rs`, which is not under `src/`) — fails with `WrongCommand` if
the first argument, lower-cased, is not one of the expected names; fails with
`WrongArgCount` if the number of trailing arguments (request length minus 1)
is less than the required minimum. -/
def validate_command (req : List RespFrame) (names : List String)
    (minArgs : Nat) : Except CommandError Unit :=
  match req.head? with
  | some (RespFrame.bulkString cmd) =>
    if asciiLower cmd ∈ names then
      if req.length - 1 < minArgs then
        Except.error (CommandError.wrongArgCount "wrong number of arguments")
      else Except.ok ()
    else Except.error (CommandError.wrongCommand cmd)
  | _ => Except.error (CommandError.wrongCommand "expected a command name")

/-- Modelled from the spec: `extract_args` (§4.2, `src/cmd/mod.rs`, not under
`src/`) — returns the trailing arguments, dropping the leading `skip`
elements; fails with `WrongArgCount` if the request is shorter than `skip`. -/
def extract_args (req : List RespFrame) (skip : Nat) :
    Except CommandError (List RespFrame) :=
  if req.length < skip then
    Except.error (CommandError.wrongArgCount "request shorter than skip count")
  else Except.ok (req.drop skip)

/-- `TryFrom<RespArray> for Echo`: validate the name and count, then the one
argument must be a bulk string. -/
def Echo.tryFrom (req : List RespFrame) : Except CommandError Echo :=
  match validate_command req ["echo"] 1 with
  | Except.error e => Except.error e
  | Except.ok _ =>
    match extract_args req 1 with
    | Except.error e => Except.error e
    | Except.ok args =>
      match args with
      | RespFrame.bulkString key :: _ => Except.ok { value := key }
      | _ => Except.error (CommandError.wrongArgumentType "Invalid key")

/-- The `args.map(..).collect::<Result<Vec<String>, _>>()` step of the SADD
parse: every remaining argument must be a bulk string. -/
def collectBulkStrings : List RespFrame → Except CommandError (List String)
  | [] => Except.ok []
  | RespFrame.bulkString s :: rest =>
    match collectBulkStrings rest with
    | Except.ok tail => Except.ok (s :: tail)
    | Except.error e => Except.error e
  | _ :: _ => Except.error (CommandError.wrongArgumentType "Invalid field")

/-- `TryFrom<RespArray> for SAdd`: note that, unlike the other commands, it
does NOT call `validate_command`; it only checks `value.len() < 3` by hand
(an argument-count failure) and then extracts the arguments after position 1,
ignoring the first element entirely. -/
def SAdd.tryFrom (req : List RespFrame) : Except CommandError SAdd :=
  if req.length < 3 then
    Except.error
      (CommandError.wrongArgCount "sadd command requires at least 2 parameters")
  else
    match extract_args req 1 with
    | Except.error e => Except.error e
    | Except.ok args =>
      match args with
      | RespFrame.bulkString key :: rest =>
        match collectBulkStrings rest with
        | Except.ok values => Except.ok { key := key, values := values }
        | Except.error e => Except.error e
      | _ => Except.error (CommandError.wrongArgumentType "Invalid key")

/-- `TryFrom<RespArray> for SMembers`: the sort flag is always set to
`false` by the parser. -/
def SMembers.tryFrom (req : List RespFrame) : Except CommandError SMembers :=
  match validate_command req ["smembers"] 1 with
  | Except.error e => Except.error e
  | Except.ok _ =>
    match extract_args req 1 with
    | Except.error e => Except.error e
    | Except.ok args =>
      match args with
      | RespFrame.bulkString key :: _ =>
        Except.ok { key := key, sort := false }
      | _ => Except.error (CommandError.wrongArgumentType "Invalid key")

/-- `TryFrom<RespArray> for SIsMember`. -/
def SIsMember.tryFrom (req : List RespFrame) : Except CommandError SIsMember :=
  match validate_command req ["sismember"] 2 with
  | Except.error e => Except.error e
  | Except.ok _ =>
    match extract_args req 1 with
    | Except.error e => Except.error e
    | Except.ok args =>
      match args with
      | RespFrame.bulkString key :: RespFrame.bulkString value :: _ =>
        Except.ok { key := key, value := value }
      | _ => Except.error (CommandError.wrongArgumentType "Invalid key or value")

/-! ## Executor dispatch -/

/-- `CommandExecutor for Echo`: a bulk-string reply carrying the echoed
value; the backend is ignored. -/
def Echo.execute (c : Echo) (_b : Backend) : RespFrame :=
  RespFrame.bulkString c.value

/-- `CommandExecutor for SAdd`: call `Backend::sadd` and wrap the count in a
bulk string formatted as `(integer) {ret}`.  The updated backend is returned
alongside the reply. -/
def SAdd.execute (c : SAdd) (b : Backend) : RespFrame × Backend :=
  let r := b.sadd c.key c.values
  (RespFrame.bulkString ("(integer) " ++ toString r.2), r.1)

/-- `Vec::sort` on strings: ascending lexicographic order.  On a
duplicate-free list of strings this is extensionally the unique sorted
permutation, matching the source's in-place sort. -/
def sortStrings (l : List String) : List String :=
  l.insertionSort (fun a b => a ≤ b)

/-- `CommandExecutor for SMembers`: snapshot the set; absent key yields an
empty array; the members are sorted first when the sort flag is set. -/
def SMembers.execute (c : SMembers) (b : Backend) : RespFrame :=
  match b.smembers c.key with
  | some s =>
    let data := if c.sort then sortStrings s else s
    RespFrame.array (data.map (fun k => RespFrame.bulkString k))
  | none => RespFrame.array []

/-- `CommandExecutor for SIsMember`: `(integer) 0` or `(integer) 1` as a bulk
string. -/
def SIsMember.execute (c : SIsMember) (b : Backend) : RespFrame :=
  RespFrame.bulkString ("(integer) " ++ toString (b.sismember c.key c.value))

/-- Modelled from the spec: the boundary layer (excluded from the core)
renders a parse failure as a protocol error reply and does not touch the
Store (§7: malformed requests yield a descriptive error reply and do not
mutate the Store).  Specialised to SADD requests. -/
def runSAdd (b : Backend) (req : List RespFrame) : RespFrame × Backend :=
  match SAdd.tryFrom req with
  | Except.ok c => c.execute b
  | Except.error e => (RespFrame.error e.message, b)

/-! ## Supporting lemmas -/

theorem alGet_alPut_self {α : Type} (l : List (String × α)) (k : String) (v : α) :
    alGet (alPut l k v) k = some v := by
  induction l with
  | nil => simp [alPut, alGet]
  | cons p rest ih =>
    obtain ⟨k2, v2⟩ := p
    by_cases h : k2 = k
    · simp [alPut, alGet, h]
    · simp [alPut, alGet, h, ih]

theorem card_insert_eq_card_erase_add_one (v : String) (T : Finset String) :
    (insert v T).card = (T.erase v).card + 1 := by
  by_cases h : v ∈ T
  · rw [Finset.insert_eq_self.mpr h]
    exact (Finset.card_erase_add_one h).symm
  · rw [Finset.card_insert_of_not_mem h, Finset.erase_eq_of_not_mem h]

theorem toFinset_append_singleton (s : List String) (v : String) :
    (s ++ [v]).toFinset = insert v s.toFinset := by
  ext x
  simp [or_comm]

theorem saddLoop_snd (vs : List String) :
    ∀ s : List String, (saddLoop s vs).2 = (vs.toFinset \ s.toFinset).card := by
  induction vs with
  | nil => intro s; simp [saddLoop]
  | cons v rest ih =>
    intro s
    by_cases hv : v ∈ s
    · rw [show saddLoop s (v :: rest) = saddLoop s rest from by simp [saddLoop, hv]]
      rw [ih s, List.toFinset_cons,
        Finset.insert_sdiff_of_mem _ (List.mem_toFinset.mpr hv)]
    · rw [show saddLoop s (v :: rest)
          = ((saddLoop (s ++ [v]) rest).1, (saddLoop (s ++ [v]) rest).2 + 1) from by
        simp [saddLoop, hv]]
      calc (saddLoop (s ++ [v]) rest).2 + 1
          = (rest.toFinset \ (s ++ [v]).toFinset).card + 1 := by rw [ih]
        _ = ((rest.toFinset \ s.toFinset).erase v).card + 1 := by
            rw [toFinset_append_singleton, Finset.sdiff_insert]
        _ = (insert v (rest.toFinset \ s.toFinset)).card :=
            (card_insert_eq_card_erase_add_one v _).symm
        _ = ((v :: rest).toFinset \ s.toFinset).card := by
            rw [List.toFinset_cons, Finset.insert_sdiff_of_not_mem _
              (fun hc => hv (List.mem_toFinset.mp hc))]

theorem mem_saddLoop_fst (vs : List String) :
    ∀ (s : List String) (x : String),
      x ∈ (saddLoop s vs).1 ↔ x ∈ s ∨ x ∈ vs := by
  induction vs with
  | nil => intro s x; simp [saddLoop]
  | cons v rest ih =>
    intro s x
    by_cases hv : v ∈ s
    · rw [show saddLoop s (v :: rest) = saddLoop s rest from by simp [saddLoop, hv]]
      rw [ih]
      simp only [List.mem_cons]
      constructor
      · rintro (h | h)
        · exact Or.inl h
        · exact Or.inr (Or.inr h)
      · rintro (h | rfl | h)
        · exact Or.inl h
        · exact Or.inl hv
        · exact Or.inr h
    · rw [show saddLoop s (v :: rest)
          = ((saddLoop (s ++ [v]) rest).1, (saddLoop (s ++ [v]) rest).2 + 1) from by
        simp [saddLoop, hv]]
      rw [show ((saddLoop (s ++ [v]) rest).1,
          (saddLoop (s ++ [v]) rest).2 + 1).1 = (saddLoop (s ++ [v]) rest).1 from rfl]
      rw [ih]
      simp [List.mem_append, List.mem_cons, or_assoc]

/-- The list stored at key `k` in the set namespace, empty when the key is
absent (`entry(key).or_default()` materialises exactly this list). -/
def preSet (b : Backend) (k : String) : List String :=
  (alGet b.set_map k).getD []

/-! ## Claim theorems -/

/-- **C1**: `sadd(k, members)` returns the count of members newly inserted
into the set at `k` — the number of distinct input members not already in
the set (duplicates within the input and members already present contribute
nothing); it creates the set at `k` if absent; and a second call with the
same list returns 0. -/
theorem sadd_count_spec (b : Backend) (k : String) (vs : List String) :
    (b.sadd k vs).2 = ((vs.toFinset \ (preSet b k).toFinset).card : Int)
    ∧ (alGet (b.sadd k vs).1.set_map k).isSome = true
    ∧ ((b.sadd k vs).1.sadd k vs).2 = 0 := by
  refine ⟨?_, ?_, ?_⟩
  · rw [show (b.sadd k vs).2 = ((saddLoop (preSet b k) vs).2 : Int) from rfl,
      saddLoop_snd]
  · rw [show (b.sadd k vs).1.set_map
        = alPut b.set_map k (saddLoop (preSet b k) vs).1 from rfl,
      alGet_alPut_self]
    rfl
  · have hget : alGet (b.sadd k vs).1.set_map k
        = some (saddLoop (preSet b k) vs).1 := alGet_alPut_self _ _ _
    rw [show ((b.sadd k vs).1.sadd k vs).2
        = ((saddLoop ((alGet (b.sadd k vs).1.set_map k).getD []) vs).2 : Int) from
        rfl, hget]
    have hsub : vs.toFinset ⊆ ((saddLoop (preSet b k) vs).1).toFinset := by
      intro x hx
      exact List.mem_toFinset.mpr
        ((mem_saddLoop_fst vs (preSet b k) x).mpr (Or.inr (List.mem_toFinset.mp hx)))
    rw [Option.getD_some, saddLoop_snd,
      Finset.sdiff_eq_empty_iff_subset.mpr hsub]
    simp

/-- **C2 counterexample**: a request whose first element, lower-cased, is
`hgetall` (not `sadd`) still parses successfully into an `SAdd` command —
the SADD parser performs no command-name validation, so the claimed
`WrongCommand` failure does not occur. -/
theorem sadd_accepts_wrong_command_name :
    SAdd.tryFrom [RespFrame.bulkString "hgetall", RespFrame.bulkString "k",
        RespFrame.bulkString "m"]
      = Except.ok { key := "k", values := ["m"] } := rfl

/-- **C2 amended**: parsing into `SAdd` never checks the command name: for
every first element (of any frame kind) and bulk-string tail with at least a
key and one member, the parse succeeds, ignoring the first element. -/
theorem sadd_ignores_command_name (first : RespFrame) (k v : String)
    (vs : List String) :
    SAdd.tryFrom (first :: RespFrame.bulkString k :: RespFrame.bulkString v ::
        vs.map RespFrame.bulkString)
      = Except.ok { key := k, values := v :: vs } := by
  have hcollect : ∀ l : List String,
      collectBulkStrings (l.map RespFrame.bulkString) = Except.ok l := by
    intro l
    induction l with
    | nil => rfl
    | cons a t ih => simp [collectBulkStrings, ih]
  have h4 : collectBulkStrings (RespFrame.bulkString v ::
      List.map RespFrame.bulkString vs) = Except.ok (v :: vs) := hcollect (v :: vs)
  simp only [SAdd.tryFrom, extract_args, List.length_cons]
  rw [if_neg (by simp :
      ¬ (List.map RespFrame.bulkString vs).length + 1 + 1 + 1 < 3),
    if_neg (by simp :
      ¬ (List.map RespFrame.bulkString vs).length + 1 + 1 + 1 < 1)]
  simp [h4]

/-- **C3**: a request of the form `SADD key` (zero member arguments) fails
parsing with a `WrongArgCount` error, and the store is unchanged by the
failed parse. -/
theorem sadd_zero_members_rejected (cmdF keyF : RespFrame) (b : Backend) :
    SAdd.tryFrom [cmdF, keyF]
        = Except.error (CommandError.wrongArgCount
            "sadd command requires at least 2 parameters")
    ∧ (runSAdd b [cmdF, keyF]).2 = b :=
  ⟨rfl, rfl⟩

/-- **C4**: executing an `SAdd` command produces an integer-style reply (a
bulk string of the form `(integer) n`) carrying exactly the count of newly
inserted members — the number of distinct input members not already in the
set at the key. -/
theorem sadd_execute_reply (c : SAdd) (b : Backend) :
    (c.execute b).1 = RespFrame.bulkString ("(integer) "
      ++ toString (((c.values.toFinset \ (preSet b c.key).toFinset).card : Int))) := by
  rw [show (c.execute b).1 = RespFrame.bulkString ("(integer) "
      ++ toString ((saddLoop (preSet b c.key) c.values).2 : Int)) from rfl,
    saddLoop_snd]

/-- **C5**: `hmget(k, fields)` returns a list of optional values with the
same length and order as `fields` (element `i` agrees with `hget(k, fields[i])`);
when the key is entirely absent it is a list of the same length with every
entry absent — never an error, never a shorter list. -/
theorem hmget_spec (b : Backend) (k : String) (fields : List String) :
    (b.hmget k fields).length = fields.length
    ∧ (alGet b.hmap k = none →
        b.hmget k fields = List.replicate fields.length none)
    ∧ ∀ i : Nat, (b.hmget k fields)[i]? = (fields[i]?).map (fun f => b.hget k f) := by
  refine ⟨?_, ?_, ?_⟩
  · unfold Backend.hmget
    cases alGet b.hmap k <;> simp
  · intro h
    unfold Backend.hmget
    rw [h]
  · intro i
    unfold Backend.hmget Backend.hget
    cases hh : alGet b.hmap k with
    | some hm => simp [List.getElem?_map]
    | none =>
      cases hfi : fields[i]? with
      | some f =>
        have hi : i < fields.length := by
          by_contra hc
          rw [List.getElem?_eq_none_iff.mpr (Nat.le_of_not_lt hc)] at hfi
          exact Option.noConfusion hfi
        simp [List.getElem?_replicate, hi, hfi]
      | none =>
        have hi : fields.length ≤ i := List.getElem?_eq_none_iff.mp hfi
        simp [List.getElem?_replicate, Nat.not_lt.mpr hi, hfi]

/-- **C5 witness**: on the empty backend, `hmget` of two fields returns two
absent entries. -/
theorem hmget_spec_witness :
    (Backend.empty.hmget "h" ["a", "b"]).length = 2
    ∧ Backend.empty.hmget "h" ["a", "b"] = List.replicate 2 none :=
  ⟨(hmget_spec Backend.empty "h" ["a", "b"]).1,
   (hmget_spec Backend.empty "h" ["a", "b"]).2.1 rfl⟩

/-- **C6**: executing `SMembers` replies with an empty array when the key is
absent; otherwise with an array of bulk strings that is a permutation of the
stored members (hence each member exactly once when the stored set is
duplicate-free), sorted ascending lexicographically when the sort flag is
set. -/
theorem smembers_execute_spec (c : SMembers) (b : Backend) :
    (alGet b.set_map c.key = none → c.execute b = RespFrame.array [])
    ∧ ∀ s, alGet b.set_map c.key = some s →
        ∃ l : List String,
          c.execute b = RespFrame.array (l.map RespFrame.bulkString)
          ∧ l.Perm s
          ∧ (s.Nodup → l.Nodup)
          ∧ (c.sort = true → l.Sorted (fun a b => a ≤ b)) := by
  constructor
  · intro h
    unfold SMembers.execute Backend.smembers
    rw [h]
  · intro s hs
    refine ⟨if c.sort then sortStrings s else s, ?_, ?_, ?_, ?_⟩
    · unfold SMembers.execute Backend.smembers
      rw [hs]
    · by_cases hc : c.sort <;>
        simp [hc, sortStrings, List.perm_insertionSort]
    · intro hnd
      by_cases hc : c.sort
      · simpa [hc, sortStrings] using
          ((List.perm_insertionSort (fun a b : String => a ≤ b) s).symm.nodup hnd)
      · simpa [hc] using hnd
    · intro hc
      simp only [hc, if_true, sortStrings]
      exact List.sorted_insertionSort _ s

/-- **C6 witness**: with the set `{"b", "a"}` stored and the sort flag set,
the reply is a sorted permutation of the members. -/
theorem smembers_execute_spec_witness :
    ∃ l : List String,
      SMembers.execute { key := "s", sort := true }
          { map := [], hmap := [], set_map := [("s", ["b", "a"])] }
        = RespFrame.array (l.map RespFrame.bulkString)
      ∧ l.Perm ["b", "a"]
      ∧ (["b", "a"].Nodup → l.Nodup)
      ∧ (({ key := "s", sort := true } : SMembers).sort = true →
          l.Sorted (fun a b => a ≤ b)) :=
  (smembers_execute_spec { key := "s", sort := true }
    { map := [], hmap := [], set_map := [("s", ["b", "a"])] }).2 ["b", "a"] rfl

/-- **C7**: `sismember(k, m)` is 0 when the key was never created or the
member is not in the stored set, 1 when it is, and the executor renders it
as the integer-style reply; the operation is total (no error path). -/
theorem sismember_spec (b : Backend) (k m : String) :
    (alGet b.set_map k = none → b.sismember k m = 0)
    ∧ (∀ s, alGet b.set_map k = some s →
        b.sismember k m = if m ∈ s then 1 else 0)
    ∧ SIsMember.execute { key := k, value := m } b
        = RespFrame.bulkString ("(integer) " ++ toString (b.sismember k m)) := by
  refine ⟨?_, ?_, rfl⟩
  · intro h
    simp [Backend.sismember, h]
  · intro s hs
    by_cases hm : m ∈ s <;> simp [Backend.sismember, hs, hm]

/-- **C7 witness**: 0 on the empty backend; 1 on a backend whose set at the
key contains the member. -/
theorem sismember_spec_witness :
    Backend.empty.sismember "k" "m" = 0
    ∧ Backend.sismember { map := [], hmap := [], set_map := [("k", ["m"])] } "k" "m"
        = if "m" ∈ ["m"] then 1 else 0 :=
  ⟨(sismember_spec Backend.empty "k" "m").1 rfl,
   (sismember_spec { map := [], hmap := [], set_map := [("k", ["m"])] }
      "k" "m").2.1 ["m"] rfl⟩

/-- **C8**: the snapshot `smembers(k)` is a decoupled point-in-time copy:
a member newly added by a subsequent `sadd(k, members)` is visible through
the store after the write, but the snapshot returned before the write does
not contain it — the write does not retroactively affect it. -/
theorem smembers_snapshot_decoupled (b : Backend) (k : String)
    (vs : List String) (m : String) (h1 : m ∈ vs) (h2 : m ∉ preSet b k) :
    (∀ s, b.smembers k = some s → m ∉ s)
    ∧ ∃ s2, (b.sadd k vs).1.smembers k = some s2 ∧ m ∈ s2 := by
  constructor
  · intro s hs
    have : preSet b k = s := by
      unfold preSet
      rw [show alGet b.set_map k = some s from hs]
      rfl
    rw [← this]
    exact h2
  · refine ⟨(saddLoop (preSet b k) vs).1, alGet_alPut_self _ _ _, ?_⟩
    exact (mem_saddLoop_fst vs (preSet b k) m).mpr (Or.inr h1)

/-- **C8 witness**: adding `"a"` to an absent set on the empty backend —
the pre-write snapshot cannot contain it, the post-write store does. -/
theorem smembers_snapshot_decoupled_witness :
    (∀ s, Backend.empty.smembers "k" = some s → "a" ∉ s)
    ∧ ∃ s2, (Backend.empty.sadd "k" ["a"]).1.smembers "k" = some s2 ∧ "a" ∈ s2 :=
  smembers_snapshot_decoupled Backend.empty "k" ["a"] "a" (by decide) (by decide)

/-- **C9**: a well-formed ECHO request (first element lower-cases to `echo`,
one bulk-string argument) parses into an `Echo` command whose value is the
argument exactly, and executing it replies with a bulk string carrying the
same value — parse then execute round-trips the argument. -/
theorem echo_roundtrip (name v : String) (h : asciiLower name = "echo")
    (b : Backend) :
    Echo.tryFrom [RespFrame.bulkString name, RespFrame.bulkString v]
        = Except.ok { value := v }
    ∧ Echo.execute { value := v } b = RespFrame.bulkString v := by
  constructor
  · simp [Echo.tryFrom, validate_command, extract_args, h]
  · rfl

/-- **C9 witness**: `ECHO hello` (upper-case command name) parses to the
value `hello` and echoes it back. -/
theorem echo_roundtrip_witness :
    Echo.tryFrom [RespFrame.bulkString "ECHO", RespFrame.bulkString "hello"]
        = Except.ok { value := "hello" }
    ∧ Echo.execute { value := "hello" } Backend.empty
        = RespFrame.bulkString "hello" :=
  echo_roundtrip "ECHO" "hello" (by decide) Backend.empty

/-- **C10**: every request that successfully parses into an `SMembers`
command yields a command whose sort flag is false — the sorted reply path is
unreachable from a parsed wire request. -/
theorem smembers_parse_sort_false (req : List RespFrame) (c : SMembers)
    (h : SMembers.tryFrom req = Except.ok c) : c.sort = false := by
  unfold SMembers.tryFrom at h
  split at h
  · exact Except.noConfusion h
  · split at h
    · exact Except.noConfusion h
    · split at h
      · injection h with h2
        rw [← h2]
      · exact Except.noConfusion h

/-- **C10 witness**: the parse of a concrete `SMEMBERS set` request has the
sort flag false. -/
theorem smembers_parse_sort_false_witness :
    ({ key := "set", sort := false } : SMembers).sort = false :=
  smembers_parse_sort_false
    [RespFrame.bulkString "smembers", RespFrame.bulkString "set"]
    { key := "set", sort := false } rfl

end SimpleRedis
